import Mathlib

/-!
Shallow embedding of the `sigmund` repository (selector extraction from EVM
bytecode and signature resolution) together with theorems checking the
natural-language specification against the code.

Bytes are modelled as `Nat` (with `% 256` where the `u8` width matters),
byte buffers as `List Nat`, Rust `HashSet<String>` as `Finset String`,
fallible constructors as `Option`, and `Result<_, ClientError>` as
`Except ClientError _`.
-/

/-- Lowercase hexadecimal digit character for a value `0..15`
(the alphabet used by Rust's `hex::encode`). -/
def hexDigitChar : Nat → Char
  | 0 => '0' | 1 => '1' | 2 => '2' | 3 => '3' | 4 => '4'
  | 5 => '5' | 6 => '6' | 7 => '7' | 8 => '8' | 9 => '9'
  | 10 => 'a' | 11 => 'b' | 12 => 'c' | 13 => 'd' | 14 => 'e' | 15 => 'f'
  | _ => '0'

/-- `hex::encode`: each byte becomes two lowercase hex characters. -/
def hexEncode (bs : List Nat) : String :=
  String.mk ((bs.map fun b => [hexDigitChar (b % 256 / 16), hexDigitChar (b % 16)]).flatten)

/-- A character is a hexadecimal digit (`0-9`, `a-f`, `A-F`), phrased over
ASCII codes: 48–57 are the decimal digits, 97–102 are `a`–`f`, 65–70 are
`A`–`F`. -/
def isHexDigit (c : Char) : Bool :=
  (48 ≤ c.toNat && c.toNat ≤ 57) ||
    (97 ≤ c.toNat && c.toNat ≤ 102) ||
    (65 ≤ c.toNat && c.toNat ≤ 70)

/-- Numeric value of a hexadecimal digit character (`none` otherwise),
phrased over ASCII codes: a digit `d` has code `d + 48`, `a`–`f` have codes
`97`–`102` (value = code − 87), `A`–`F` have codes `65`–`70`
(value = code − 55). -/
def hexVal (c : Char) : Option Nat :=
  if 48 ≤ c.toNat && c.toNat ≤ 57 then some (c.toNat - 48)
  else if 97 ≤ c.toNat && c.toNat ≤ 102 then some (c.toNat - 87)
  else if 65 ≤ c.toNat && c.toNat ≤ 70 then some (c.toNat - 55)
  else none

/-- `hex::decode` over a character list: pairs of hex digits become bytes;
an odd-length input or a non-hex character fails. -/
def hexDecodeChars : List Char → Option (List Nat)
  | [] => some []
  | [_] => none
  | hi :: lo :: rest =>
    match hexVal hi, hexVal lo, hexDecodeChars rest with
    | some h, some l, some r => some ((16 * h + l) :: r)
    | _, _, _ => none

/-- The string (as a character list) is even-length and all hex digits:
exactly the inputs `hex::decode` accepts. -/
def isEvenHex (l : List Char) : Bool :=
  l.length % 2 == 0 && l.all isHexDigit

/-- Rust `str::trim_start_matches("0x")`: repeatedly strip a leading `"0x"`
while the string still starts with it. -/
def trim0x : List Char → List Char
  | c1 :: c2 :: rest => if c1 = '0' ∧ c2 = 'x' then trim0x rest else c1 :: c2 :: rest
  | l => l

/-- Strip at most one leading `"0x"`. This follows the spec sentence about a
single "optional `0x` prefix stripped before decoding", for comparison with
the `trim_start_matches`-based code. -/
def strip0xOnce : List Char → List Char
  | '0' :: 'x' :: rest => rest
  | l => l

/-- `Bytecode`: the raw byte buffer of a contract (`inner: Vec<u8>`). -/
structure Bytecode where
  inner : List Nat
deriving DecidableEq

/-- `impl TryFrom<String> for Bytecode`: strip the `"0x"` prefix with
`trim_start_matches` and hex-decode the remainder. -/
def Bytecode.try_from (s : String) : Option Bytecode :=
  (hexDecodeChars (trim0x s.data)).map Bytecode.mk

/-- Fixed-width slice `b[start..start+len]` read with `getD` (in-bounds
accesses agree with real slicing). -/
def sliceD (b : List Nat) (start len : Nat) : List Nat :=
  (List.range len).map fun j => b.getD (start + j) 0

/-- One iteration of the scan loop of `Bytecode::find_function_selectors`:
if `b[idx] == 0x63` (PUSH4) and `b[idx+5] == 0x14` (EQ), produce the
lowercase hex encoding of the slice `b[idx+1..idx+5]`. -/
def scanStep (b : List Nat) (idx : Nat) : Option String :=
  if b.getD idx 0 = 0x63 ∧ b.getD (idx + 5) 0 = 0x14 then
    some (hexEncode (sliceD b (idx + 1) 4))
  else none

/-- `Bytecode::find_function_selectors`: run `scanStep` for every
`idx in 0..len.saturating_sub(5)` and collect the hits in a set. -/
def Bytecode.find_function_selectors (bc : Bytecode) : Finset String :=
  ((List.range (bc.inner.length - 5)).filterMap (scanStep bc.inner)).toFinset

/-- Bounds-checked slice: every byte is read with `get?`, so any
out-of-bounds access makes the whole slice `none`. -/
def sliceChecked (b : List Nat) (start len : Nat) : Option (List Nat) :=
  (List.range len).mapM fun j => b.get? (start + j)

/-- Bounds-checked mirror of `scanStep`: every buffer access of the source
loop body is performed with `get?`, in the source's short-circuit order, so
the step returns `none` as soon as any read would be out of bounds — the
analogue of a Rust index panic. -/
def scanStepChecked (b : List Nat) (idx : Nat) : Option (Option String) := do
  let x ← b.get? idx
  if x = 0x63 then
    let y ← b.get? (idx + 5)
    if y = 0x14 then
      let sel ← sliceChecked b (idx + 1) 4
      pure (some (hexEncode sel))
    else pure none
  else pure none

/-- Bounds-checked mirror of `find_function_selectors`, built on
`scanStepChecked`: `none` exactly when some buffer access of the loop is out
of bounds. -/
def Bytecode.find_function_selectors_checked (bc : Bytecode) : Option (Finset String) := do
  let entries ← (List.range (bc.inner.length - 5)).mapM (scanStepChecked bc.inner)
  pure (entries.filterMap id).toFinset

/-- Modelled from the spec: the repository's `deep` scan variant (the `--deep`
flag declared in `config.rs` and the boolean argument the tests pass to
`find_function_selectors`) has no implementation under `src/`. Per the spec,
when `deep` is enabled the scanner "additionally collects every 4-byte
literal immediately following *any* PUSH4-opcode byte, regardless of whether
it matches the anchor pattern", "strictly additive to the anchor-pattern
results"; the non-deep pass is the `PUSH4 … EQ` scan of the source. Both
passes are fused into the source's single window loop. -/
def Bytecode.find_function_selectors_deep (bc : Bytecode) (deep : Bool) : Finset String :=
  ((List.range (bc.inner.length - 5)).filterMap fun idx =>
    if bc.inner.getD idx 0 = 0x63 ∧ (deep = true ∨ bc.inner.getD (idx + 5) 0 = 0x14) then
      some (hexEncode (sliceD bc.inner (idx + 1) 4))
    else none).toFinset

/-- Item values of the Etherface API response (`SignatureItem`). -/
structure SignatureItem where
  hash : String
  text : String
deriving DecidableEq

/-- `SignatureItem::default()`: empty hash and text. -/
def SignatureItem.default : SignatureItem := ⟨"", ""⟩

/-- Etherface API response for a signature hash (`SignatureResponse`). -/
structure SignatureResponse where
  items : List SignatureItem
deriving DecidableEq

/-- A decoded signature: text, hash, and the selector derived from the hash. -/
structure Signature where
  text : String
  hash : String
  selector : String
deriving DecidableEq

/-- Rust `format!("{:.8}", s)` on a string: the precision `.8` truncates the
string to at most its first 8 characters. -/
def formatPrec8 (s : String) : String :=
  String.mk (truncAux 8 s.data)
where
  truncAux : Nat → List Char → List Char
    | 0, _ => []
    | _, [] => []
    | n + 1, c :: cs => c :: truncAux n cs

/-- `Signature::new`: the selector is `format!("{:.8}", hash)`. -/
def Signature.new (text hash : String) : Signature :=
  { selector := formatPrec8 hash, hash := hash, text := text }

/-- `impl From<SignatureItem> for Signature`. -/
def Signature.ofItem (item : SignatureItem) : Signature :=
  Signature.new item.text item.hash

/-- `impl From<&SignatureItem> for Signature`: clones the item (a no-op in
the model) and delegates to `Signature::new`. -/
def Signature.ofItemRef (item : SignatureItem) : Signature :=
  Signature.new item.text item.hash

/-- The first 8 characters of a string, as the spec words it ("first 8 hex
characters" / "leading 4 bytes of the hash"). Stated independently of
`formatPrec8` so the invariant about `Signature.selector` compares the code's
formatting against the spec's slicing. -/
def firstEightChars (s : String) : String :=
  String.mk (s.data.take 8)

/-- `ClientError`: transport (`reqwest`) or JSON (`serde`) failure. -/
inductive ClientError where
  | reqwestError
  | serdeError
deriving DecidableEq

/-- The outcome the network delivers for one per-selector lookup:
either the request itself fails at the transport level (`send()`/`bytes()`
returns `Err`), or a body arrives and `serde_json::from_slice` either parses
it into a `SignatureResponse` (`body (some r)`) or fails on a malformed /
undecodable body (`body none`). -/
inductive FetchOutcome where
  | transportErr
  | body (parsed : Option SignatureResponse)
deriving DecidableEq

/-- `Client::get_signature`: a transport failure is propagated with `?`;
otherwise the parse result is returned through `.ok()`, so a malformed body
yields `Ok(None)` rather than an error. -/
def get_signature : FetchOutcome → Except ClientError (Option SignatureResponse)
  | .transportErr => .error .reqwestError
  | .body parsed => .ok parsed

/-- `Client::get_signatures` over the list of per-lookup outcomes (one per
selector, in completion order): `try_collect` the individual results
(first failure aborts the batch), `flatten` away the `None` responses, then
for each remaining response push all items (`most_common = true`) or a
signature built from `items.first().unwrap_or(&SignatureItem::default())`
(`most_common = false`). -/
def get_signatures (outcomes : List FetchOutcome) (most_common : Bool) :
    Except ClientError (List Signature) := do
  let results ← outcomes.mapM get_signature
  let successful := results.filterMap id
  pure (successful.flatMap fun response =>
    match most_common with
    | true => response.items.map Signature.ofItem
    | false => [Signature.ofItemRef (response.items.headD SignatureItem.default)])

/-- The FirstMatch aggregation as the amended claim words it: a response with
at least one candidate contributes exactly its first candidate; a well-formed
response with zero items contributes one signature built from the default
(empty) item; an absent/malformed response contributes nothing. -/
def firstMatchSpec (outcomes : List FetchOutcome) : List Signature :=
  outcomes.flatMap fun o =>
    match o with
    | .transportErr => []
    | .body none => []
    | .body (some r) =>
      match r.items with
      | [] => [Signature.new "" ""]
      | item :: _ => [Signature.ofItemRef item]

/-! ## Helper lemmas -/

theorem mapM_option_eq_some {α β : Type} (f : α → Option β) (g : α → β) :
    ∀ l : List α, (∀ a ∈ l, f a = some (g a)) → l.mapM f = some (l.map g)
  | [], _ => rfl
  | a :: as, h => by
    rw [List.mapM_cons, h a (List.mem_cons_self a as),
      mapM_option_eq_some f g as (fun x hx => h x (List.mem_cons_of_mem a hx))]
    rfl

theorem get?_eq_some_getD (b : List Nat) (i : Nat) (h : i < b.length) :
    b.get? i = some (b.getD i 0) := by
  rw [List.getD_eq_getElem?_getD, List.get?_eq_getElem?]
  rw [List.getElem?_eq_getElem h]
  rfl

theorem sliceChecked_eq_sliceD (b : List Nat) (start len : Nat)
    (h : start + len ≤ b.length) :
    sliceChecked b start len = some (sliceD b start len) := by
  apply mapM_option_eq_some
  intro j hj
  exact get?_eq_some_getD b (start + j) (by have := List.mem_range.mp hj; omega)

theorem scanStepChecked_eq (b : List Nat) (idx : Nat) (h : idx + 5 < b.length) :
    scanStepChecked b idx = some (scanStep b idx) := by
  unfold scanStepChecked scanStep
  rw [get?_eq_some_getD b idx (by omega), get?_eq_some_getD b (idx + 5) (by omega),
    sliceChecked_eq_sliceD b (idx + 1) 4 (by omega)]
  simp only [Option.bind_eq_bind, Option.some_bind]
  by_cases h63 : b.getD idx 0 = 0x63
  · by_cases h14 : b.getD (idx + 5) 0 = 0x14
    · rw [if_pos h63, if_pos h14, if_pos ⟨h63, h14⟩]; rfl
    · rw [if_pos h63, if_neg h14, if_neg (fun hc => h14 hc.2)]; rfl
  · rw [if_neg h63, if_neg (fun hc => h63 hc.1)]; rfl

/-! ## Scanner claims -/

/-- C9: `find_function_selectors` is total over arbitrary byte buffers —
the bounds-checked mirror of the scan, in which every buffer read is
performed with `get?` and any out-of-bounds access (a Rust index panic)
would make the result `none`, always returns `some` of the set computed by
`find_function_selectors`, for every buffer including the empty one and
buffers shorter than the window. -/
theorem find_function_selectors_total (bc : Bytecode) :
    bc.find_function_selectors_checked = some bc.find_function_selectors := by
  unfold Bytecode.find_function_selectors_checked Bytecode.find_function_selectors
  rw [mapM_option_eq_some (scanStepChecked bc.inner) (scanStep bc.inner) _
    (fun idx hidx => scanStepChecked_eq bc.inner idx
      (by have := List.mem_range.mp hidx; omega))]
  simp [List.filterMap_map]

/-- C1 counterexample: the buffer `[0x57, 0x80, 0x63, 0xaa, 0xbb, 0xcc, 0xdd]`
carries the JUMPI (0x57), DUP1 (0x80), PUSH4 (0x63) byte triple at position 0
with the 4 selector bytes `aa bb cc dd` entirely in bounds, yet
`find_function_selectors` does not return their hex encoding: the source
matches `PUSH4 … EQ`, not the JUMPI/DUP1/PUSH4 anchor. -/
theorem anchor_triple_counterexample :
    ([0x57, 0x80, 0x63, 0xaa, 0xbb, 0xcc, 0xdd] : List Nat).getD 0 0 = 0x57 ∧
    ([0x57, 0x80, 0x63, 0xaa, 0xbb, 0xcc, 0xdd] : List Nat).getD 1 0 = 0x80 ∧
    ([0x57, 0x80, 0x63, 0xaa, 0xbb, 0xcc, 0xdd] : List Nat).getD 2 0 = 0x63 ∧
    0 + 7 ≤ ([0x57, 0x80, 0x63, 0xaa, 0xbb, 0xcc, 0xdd] : List Nat).length ∧
    hexEncode (sliceD [0x57, 0x80, 0x63, 0xaa, 0xbb, 0xcc, 0xdd] 3 4) ∉
      (Bytecode.mk [0x57, 0x80, 0x63, 0xaa, 0xbb, 0xcc, 0xdd]).find_function_selectors := by
  decide

/-- C1 (amended): for every byte buffer `b` and position `p` such that
`b[p]` is the PUSH4 opcode byte (0x63), `b[p+5]` is the EQ opcode byte
(0x14) and `p+5` lies within the buffer, `find_function_selectors` returns a
set containing the lowercase hex encoding of the 4 bytes `b[p+1..p+5]`. -/
theorem find_function_selectors_contains (b : List Nat) (p : Nat)
    (hlen : p + 5 < b.length) (h63 : b.getD p 0 = 0x63) (h14 : b.getD (p + 5) 0 = 0x14) :
    hexEncode (sliceD b (p + 1) 4) ∈ (Bytecode.mk b).find_function_selectors := by
  unfold Bytecode.find_function_selectors
  rw [List.mem_toFinset]
  refine List.mem_filterMap.mpr ⟨p, List.mem_range.mpr (show p < b.length - 5 by omega), ?_⟩
  unfold scanStep
  rw [if_pos ⟨h63, h14⟩]

/-- Witness for the amended C1 theorem at the concrete buffer
`[0x63, 0x01, 0x02, 0x03, 0x04, 0x14, 0x00]` and position 0. -/
theorem find_function_selectors_contains_witness :
    0 + 5 < ([0x63, 0x01, 0x02, 0x03, 0x04, 0x14, 0x00] : List Nat).length ∧
    hexEncode (sliceD [0x63, 0x01, 0x02, 0x03, 0x04, 0x14, 0x00] (0 + 1) 4) ∈
      (Bytecode.mk [0x63, 0x01, 0x02, 0x03, 0x04, 0x14, 0x00]).find_function_selectors :=
  ⟨by decide, find_function_selectors_contains _ 0 (by decide) (by decide) (by decide)⟩

/-- C5 counterexample: the 6-byte buffer `[0x63, 0xaa, 0xbb, 0xcc, 0xdd, 0x14]`
is shorter than 7 bytes, yet `find_function_selectors` returns the non-empty
set `{"aabbccdd"}`: the source window is 6 bytes (PUSH4 + 4 + EQ), not 7. -/
theorem short_buffer_counterexample :
    ([0x63, 0xaa, 0xbb, 0xcc, 0xdd, 0x14] : List Nat).length < 7 ∧
    (Bytecode.mk [0x63, 0xaa, 0xbb, 0xcc, 0xdd, 0x14]).find_function_selectors ≠ ∅ := by
  decide

/-- C5 (amended): for every byte buffer shorter than 6 bytes,
`find_function_selectors` returns the empty set. -/
theorem find_function_selectors_short (b : List Nat) (h : b.length < 6) :
    (Bytecode.mk b).find_function_selectors = ∅ := by
  have h0 : b.length - 5 = 0 := by omega
  simp [Bytecode.find_function_selectors, h0]

/-- Witness for the amended C5 theorem at the 3-byte buffer `[0x63, 1, 2]`. -/
theorem find_function_selectors_short_witness :
    ([0x63, 1, 2] : List Nat).length < 6 ∧
    (Bytecode.mk [0x63, 1, 2]).find_function_selectors = ∅ :=
  ⟨by decide, find_function_selectors_short _ (by decide)⟩

/-- C7: for every byte buffer, the selector set of the deep scan
(`deep = true`) is a superset of the selector set of the non-deep scan
(`deep = false`): the deep pass only adds results. -/
theorem find_function_selectors_deep_superset (bc : Bytecode) :
    bc.find_function_selectors_deep false ⊆ bc.find_function_selectors_deep true := by
  intro s hs
  rw [Bytecode.find_function_selectors_deep, List.mem_toFinset] at hs
  rw [Bytecode.find_function_selectors_deep, List.mem_toFinset]
  obtain ⟨idx, hmem, hval⟩ := List.mem_filterMap.mp hs
  refine List.mem_filterMap.mpr ⟨idx, hmem, ?_⟩
  by_cases hcond : bc.inner.getD idx 0 = 0x63 ∧
      ((false : Bool) = true ∨ bc.inner.getD (idx + 5) 0 = 0x14)
  · rw [if_pos hcond] at hval
    rw [if_pos ⟨hcond.1, Or.inl rfl⟩]
    exact hval
  · rw [if_neg hcond] at hval
    exact Option.noConfusion hval

/-! ## Hex decoding and `TryFrom<String>` claims -/

theorem hexVal_isSome (c : Char) : (hexVal c).isSome = isHexDigit c := by
  unfold hexVal isHexDigit
  by_cases h1 : (48 ≤ c.toNat && c.toNat ≤ 57) = true
  · simp [h1]
  · by_cases h2 : (97 ≤ c.toNat && c.toNat ≤ 102) = true
    · simp [h1, h2]
    · by_cases h3 : (65 ≤ c.toNat && c.toNat ≤ 70) = true
      · simp [h1, h2, h3]
      · simp [h1, h2, h3]

theorem hexDecodeChars_isSome : ∀ l : List Char, (hexDecodeChars l).isSome = isEvenHex l
  | [] => by decide
  | [c] => by
    simp [hexDecodeChars, isEvenHex]
  | hi :: lo :: rest => by
    have ih := hexDecodeChars_isSome rest
    unfold hexDecodeChars
    rw [show isEvenHex (hi :: lo :: rest) =
      (isHexDigit hi && (isHexDigit lo && isEvenHex rest)) from ?_]
    · rw [← hexVal_isSome hi, ← hexVal_isSome lo, ← ih]
      cases hexVal hi <;> cases hexVal lo <;> cases hexDecodeChars rest <;> rfl
    · unfold isEvenHex
      simp only [List.length_cons, List.all_cons]
      rw [show (rest.length + 1 + 1) % 2 = rest.length % 2 by omega]
      cases isHexDigit hi <;> cases isHexDigit lo <;> cases hmod : rest.length % 2 == 0 <;>
        simp [hmod]

theorem trim0x_cons0x (rest : List Char) : trim0x ('0' :: 'x' :: rest) = trim0x rest := by
  rw [trim0x, if_pos ⟨rfl, rfl⟩]

theorem trim0x_eq_self : ∀ l : List Char, l.all isHexDigit = true → trim0x l = l
  | [], _ => rfl
  | [_], _ => rfl
  | c1 :: c2 :: rest, h => by
    rw [trim0x, if_neg]
    rintro ⟨rfl, rfl⟩
    simp only [List.all_cons, Bool.and_eq_true] at h
    exact absurd h.2.1 (by decide)

/-- `k` concatenated copies of the two characters `"0x"`. -/
def rep0x : Nat → List Char
  | 0 => []
  | k + 1 => '0' :: 'x' :: rep0x k

theorem trim0x_rep0x_append : ∀ (k : Nat) (h : List Char),
    trim0x (rep0x k ++ h) = trim0x h
  | 0, _ => rfl
  | k + 1, h => by
    rw [rep0x, List.cons_append, List.cons_append, trim0x_cons0x]
    exact trim0x_rep0x_append k h

/-- C6 counterexample: `Bytecode::try_from` succeeds on `"0x0x1234"`
(yielding the bytes `0x12 0x34`), yet the input after stripping exactly one
leading `"0x"` is `"0x1234"`, which is not a valid hex string: the
`trim_start_matches`-based code strips every repeated leading `"0x"`, so
success is not equivalent to "one optional prefix stripped, then even-length
valid hex". -/
theorem try_from_one_strip_counterexample :
    Bytecode.try_from "0x0x1234" = some (Bytecode.mk [0x12, 0x34]) ∧
    isEvenHex (strip0xOnce ("0x0x1234".data)) = false := by
  decide

/-- C6 (amended): `Bytecode::try_from` on a string succeeds if and only if
the string, after stripping every repeated leading `"0x"` occurrence
(`trim_start_matches`), is an even-length string of valid hexadecimal
digits; in particular a non-hex input such as `"0xg1234567"` fails and no
`Bytecode` value is produced from it. -/
theorem try_from_isSome_iff_evenHex (s : String) :
    (Bytecode.try_from s).isSome = isEvenHex (trim0x s.data) := by
  unfold Bytecode.try_from
  rw [← hexDecodeChars_isSome (trim0x s.data)]
  cases hexDecodeChars (trim0x s.data) <;> rfl

/-- C10: for every `k` and every even-length valid-hex character list `h`,
`Bytecode::try_from` on the concatenation of `k` copies of `"0x"` followed
by `h` succeeds and yields exactly the bytes hex-decoded from `h`. -/
theorem try_from_strips_repeated_0x (k : Nat) (h : List Char)
    (hhex : isEvenHex h = true) :
    Bytecode.try_from (String.mk (rep0x k ++ h)) = (hexDecodeChars h).map Bytecode.mk ∧
    (hexDecodeChars h).isSome = true := by
  constructor
  · unfold Bytecode.try_from
    rw [show (String.mk (rep0x k ++ h)).data = rep0x k ++ h from rfl,
      trim0x_rep0x_append k h,
      trim0x_eq_self h (Bool.and_elim_right hhex)]
  · rw [hexDecodeChars_isSome h, hhex]

/-- Witness for the C10 theorem at `k = 2`, `h = "1234"`: `"0x0x1234"`
decodes to the two bytes `0x12 0x34`. -/
theorem try_from_strips_repeated_0x_witness :
    isEvenHex ['1', '2', '3', '4'] = true ∧
    Bytecode.try_from (String.mk (rep0x 2 ++ ['1', '2', '3', '4'])) =
      (hexDecodeChars ['1', '2', '3', '4']).map Bytecode.mk ∧
    hexDecodeChars ['1', '2', '3', '4'] = some [0x12, 0x34] :=
  ⟨by decide, (try_from_strips_repeated_0x 2 ['1', '2', '3', '4'] (by decide)).1, by decide⟩

/-! ## Signature selector claim -/

theorem truncAux_eq_take : ∀ (n : Nat) (l : List Char), formatPrec8.truncAux n l = l.take n
  | 0, _ => by cases ‹List Char› <;> rfl
  | _ + 1, [] => rfl
  | n + 1, c :: cs => by
    rw [formatPrec8.truncAux, List.take_succ_cons, truncAux_eq_take n cs]

/-- C8: every `Signature` constructed through `Signature::new` — including
both `From<SignatureItem>` conversions, which delegate to it — has its
`selector` field equal to the first 8 characters of its `hash` field
(the leading 4 bytes of the hash); it is never supplied independently. -/
theorem signature_selector_from_hash (text hash : String) (item : SignatureItem) :
    (Signature.new text hash).selector = firstEightChars (Signature.new text hash).hash ∧
    (Signature.ofItem item).selector = firstEightChars (Signature.ofItem item).hash ∧
    (Signature.ofItemRef item).selector = firstEightChars (Signature.ofItemRef item).hash := by
  refine ⟨?_, ?_, ?_⟩ <;>
    · show formatPrec8 _ = firstEightChars _
      unfold formatPrec8 firstEightChars
      rw [truncAux_eq_take]
      rfl

/-! ## Resolver claims -/

theorem mapM_get_signature_error : ∀ outcomes : List FetchOutcome,
    FetchOutcome.transportErr ∈ outcomes →
    outcomes.mapM get_signature =
      (.error .reqwestError : Except ClientError (List (Option SignatureResponse)))
  | [], h => absurd h (List.not_mem_nil _)
  | o :: os, h => by
    rw [List.mapM_cons]
    cases o with
    | transportErr => rfl
    | body p =>
      have hmem : FetchOutcome.transportErr ∈ os :=
        (List.mem_cons.mp h).resolve_left (by simp)
      rw [show get_signature (.body p) = .ok p from rfl,
        mapM_get_signature_error os hmem]
      rfl

/-- C2: if at least one of the per-selector lookups fails with a
transport-level error, `Client::get_signatures` returns an error (the
wrapped `ReqwestError`) under either aggregation mode: the caller observes
zero results and no succeeded lookup contributes any output. -/
theorem get_signatures_transport_error (outcomes : List FetchOutcome)
    (most_common : Bool) (h : FetchOutcome.transportErr ∈ outcomes) :
    get_signatures outcomes most_common = .error .reqwestError := by
  unfold get_signatures
  rw [mapM_get_signature_error outcomes h]
  rfl

/-- Witness for the C2 theorem: a batch whose first lookup succeeded with a
candidate and whose second failed at the transport level errors as a whole. -/
theorem get_signatures_transport_error_witness :
    FetchOutcome.transportErr ∈
      [FetchOutcome.body (some ⟨[⟨"aabbccddee", "foo()"⟩]⟩), FetchOutcome.transportErr] ∧
    get_signatures
      [FetchOutcome.body (some ⟨[⟨"aabbccddee", "foo()"⟩]⟩), FetchOutcome.transportErr]
      false = .error .reqwestError :=
  ⟨by decide, get_signatures_transport_error _ false (by decide)⟩

/-- C3 counterexample: a single well-formed response with zero items does
not contribute nothing — under `most_common = false` the code pushes a
signature built from `SignatureItem::default()`
(`items.first().unwrap_or(&SignatureItem::default())`), so the result is a
one-element list, not the empty list a not-found lookup produces. -/
theorem first_match_empty_items_counterexample :
    get_signatures [FetchOutcome.body (some ⟨[]⟩)] false = .ok [Signature.new "" ""] ∧
    get_signatures [FetchOutcome.body (some ⟨[]⟩)] false ≠ .ok [] := by
  refine ⟨rfl, ?_⟩
  rw [show get_signatures [FetchOutcome.body (some ⟨[]⟩)] false
    = .ok [Signature.new "" ""] from rfl]
  simp [Signature.new]

theorem mapM_get_signature_ok : ∀ outcomes : List FetchOutcome,
    FetchOutcome.transportErr ∉ outcomes →
    outcomes.mapM get_signature =
      (.ok (outcomes.map fun o => match o with
          | .transportErr => none
          | .body p => p) :
        Except ClientError (List (Option SignatureResponse)))
  | [], _ => rfl
  | o :: os, h => by
    rw [List.mapM_cons]
    cases o with
    | transportErr => exact absurd (List.mem_cons_self _ _) h
    | body p =>
      rw [show get_signature (.body p) = .ok p from rfl,
        mapM_get_signature_ok os (fun hm => h (List.mem_cons_of_mem _ hm))]
      rfl

theorem firstMatchSpec_cons (o : FetchOutcome) (os : List FetchOutcome) :
    firstMatchSpec (o :: os) = firstMatchSpec [o] ++ firstMatchSpec os := by
  simp only [firstMatchSpec]
  rw [List.flatMap_cons, List.flatMap_cons, List.flatMap_nil, List.append_nil]

theorem flatten_first_match : ∀ outcomes : List FetchOutcome,
    ((outcomes.map fun o => match o with
        | FetchOutcome.transportErr => none
        | FetchOutcome.body p => p).filterMap id).flatMap
      (fun response => [Signature.ofItemRef (response.items.headD SignatureItem.default)]) =
    firstMatchSpec outcomes
  | [] => rfl
  | FetchOutcome.transportErr :: os => by
    show ((os.map _).filterMap id).flatMap _ = _
    rw [flatten_first_match os, firstMatchSpec_cons]
    rfl
  | FetchOutcome.body none :: os => by
    show ((os.map _).filterMap id).flatMap _ = _
    rw [flatten_first_match os, firstMatchSpec_cons]
    rfl
  | FetchOutcome.body (some ⟨[]⟩) :: os => by
    show [Signature.ofItemRef (([] : List SignatureItem).headD SignatureItem.default)] ++
      ((os.map _).filterMap id).flatMap _ = _
    rw [flatten_first_match os, firstMatchSpec_cons]
    rfl
  | FetchOutcome.body (some ⟨item :: rest⟩) :: os => by
    show [Signature.ofItemRef ((item :: rest).headD SignatureItem.default)] ++
      ((os.map _).filterMap id).flatMap _ = _
    rw [flatten_first_match os, firstMatchSpec_cons]
    rfl

/-- C3 (amended): under `most_common = false` (FirstMatch) and in the
absence of transport failures, `get_signatures` produces, per lookup in
order: for a response with at least one candidate, exactly the first
(highest-ranked) candidate; for a well-formed response with zero items, one
signature built from the default (empty) `SignatureItem` — not nothing; and
nothing for an absent/malformed response. -/
theorem get_signatures_first_match (outcomes : List FetchOutcome)
    (h : FetchOutcome.transportErr ∉ outcomes) :
    get_signatures outcomes false = .ok (firstMatchSpec outcomes) := by
  unfold get_signatures
  rw [mapM_get_signature_ok outcomes h]
  show Except.ok _ = Except.ok _
  rw [flatten_first_match outcomes]

/-- Witness for the amended C3 theorem on a batch exercising all three
response shapes: a response with two candidates contributes exactly its
first candidate, a malformed response contributes nothing, and a zero-item
response contributes the default-item signature. -/
theorem get_signatures_first_match_witness :
    FetchOutcome.transportErr ∉
      [FetchOutcome.body (some ⟨[⟨"aabbccddee", "foo()"⟩, ⟨"ffee", "bar()"⟩]⟩),
        FetchOutcome.body none, FetchOutcome.body (some ⟨[]⟩)] ∧
    get_signatures
      [FetchOutcome.body (some ⟨[⟨"aabbccddee", "foo()"⟩, ⟨"ffee", "bar()"⟩]⟩),
        FetchOutcome.body none, FetchOutcome.body (some ⟨[]⟩)] false =
      .ok (firstMatchSpec
        [FetchOutcome.body (some ⟨[⟨"aabbccddee", "foo()"⟩, ⟨"ffee", "bar()"⟩]⟩),
          FetchOutcome.body none, FetchOutcome.body (some ⟨[]⟩)]) :=
  ⟨by decide, get_signatures_first_match _ (by decide)⟩

/-- C4 counterexample: a lookup whose response body is malformed or
undecodable does not abort the call — `get_signatures` on that single
outcome succeeds with an empty result (the `.ok()` in `get_signature` turns
a parse failure into `Ok(None)`), instead of failing as the claim states. -/
theorem malformed_body_counterexample :
    get_signatures [FetchOutcome.body none] false = .ok [] ∧
    get_signatures [FetchOutcome.body none] false ≠ .error ClientError.reqwestError ∧
    get_signatures [FetchOutcome.body none] false ≠ .error ClientError.serdeError := by
  refine ⟨rfl, ?_, ?_⟩ <;>
    · rw [show get_signatures [FetchOutcome.body none] false = .ok [] from rfl]
      simp

/-- C4 (amended): a malformed or undecodable response body is treated as
"no match": prepending such an outcome to any batch leaves the result of
`get_signatures` unchanged under either aggregation mode — it neither
aborts the call nor contributes output; only transport-level failures abort
the batch. -/
theorem get_signatures_malformed_no_effect (outcomes : List FetchOutcome)
    (most_common : Bool) :
    get_signatures (FetchOutcome.body none :: outcomes) most_common =
      get_signatures outcomes most_common := by
  unfold get_signatures
  rw [List.mapM_cons, show get_signature (.body none) = Except.ok none from rfl]
  cases hmm : outcomes.mapM get_signature with
  | error e => rfl
  | ok results => rfl
